import Mathlib

/-!
Verification of the incremental-update pipeline of `sync-doge-scrape`.

This file gives a shallow embedding, in Lean 4, of the parts of the repository
that carry the pipeline's logic:

  * `doge_scrape.py`: `df_row_diff_2` (row-identity differ), `clean_stub_df`
    and `safe_to_dt` (schema normalizer), `extend_contract_data` and
    `extend_grant_data` (per-row enrichers), `log_row_error` (run error log);
  * `sync_doge_scrape.py`: `save_doge_data_bln` (snapshot saver),
    `copy_scrape_files_to_bln` (snapshot uploader), and the reporting tail of
    `run_pipeline`.

Modelling conventions:

  * A pandas cell is a `Value`: `null` stands for a missing value
    (NaN / None), `str` for a string cell, `num` for a numeric cell.
    pandas elementwise equality (`==`) treats a missing value as unequal to
    everything, including another missing value; `valEq` reproduces that.
  * A DataFrame is a column-name list plus a row list; rows are value lists
    aligned positionally with the column list.  Where the row labels matter
    (the differ drops rows by label), rows carry a `Nat` label.
  * External effects are made explicit: the `validators.url` check and the
    network fetch/parse of the enrichers are function parameters; file writes,
    upload attempts and the run error log are returned as lists; a Python
    exception is an `Except` error (`PyErr`), and a Python local variable that
    may be unbound at its use site is an `Option` whose `none` branch raises
    `PyErr.nameError`.
  * Python string primitives used by the code (`str.split(', ')`,
    `str.lower`, `str.replace`) are re-implemented over `List Char` so that
    all definitions reduce in the kernel.
-/

set_option linter.unusedVariables false

/-- A pandas cell value.  `null` is a missing value (NaN / None). -/
inductive Value where
  | null : Value
  | str : String → Value
  | num : Int → Value
deriving DecidableEq, Repr

/-- pandas elementwise `==`: a missing value compares unequal to everything,
including another missing value; values of different kinds compare unequal. -/
def valEq : Value → Value → Bool
  | Value.null, _ => false
  | _, Value.null => false
  | Value.str a, Value.str b => a == b
  | Value.num a, Value.num b => a == b
  | _, _ => false

/-- The cell of an old-table row in column `c`, as selected by the
`old_df[stub_df.columns]` projection in `df_row_diff_2`. -/
def projCell (oldCols : List String) (oldCells : List Value) (c : String) : Value :=
  oldCells.getD (oldCols.indexOf c) Value.null

/-- `(old_df[stub_df.columns] == row).all(axis=1)` for one old row: the old row
agrees with the stub row on every stub column.  Over zero columns this is
vacuously true, as in pandas. -/
def rowMatch (oldCols : List String) (oldCells : List Value)
    (stubCols : List String) (stubCells : List Value) : Bool :=
  (stubCols.zip stubCells).all (fun p => valEq (projCell oldCols oldCells p.1) p.2)

/-- `np.arange(len(match_series))[match_series]`: the positions of the old rows
that match the given stub row. -/
def matchPositions (oldCols : List String) (oldRows : List (List Value))
    (stubCols : List String) (stubCells : List Value) : List Nat :=
  (oldRows.enum.filter (fun p => rowMatch oldCols p.2 stubCols stubCells)).map Prod.fst

/-- `df_row_diff_2(old_df, stub_df)` from `doge_scrape.py`.  The Python loop
iterates over a fixed copy of the stub rows, drops (by label) each stub row
matched by some old row, and records the matching old-row positions; the
remaining rows keep their order and labels.  Stub rows are `(label, cells)`
pairs; old-row labels play no role (matching is positional there). -/
def df_row_diff_2 (oldCols : List String) (oldRows : List (List Value))
    (stubCols : List String) (stubRows : List (Nat × List Value)) :
    List (Nat × List Value) × List (List Nat) :=
  match stubRows with
  | [] => ([], [])
  | r :: rest =>
    let ms := oldRows.map (fun o => rowMatch oldCols o stubCols r.2)
    let tail := df_row_diff_2 oldCols oldRows stubCols rest
    if ms.any id then
      (tail.1, matchPositions oldCols oldRows stubCols r.2 :: tail.2)
    else
      (r :: tail.1, tail.2)

/-- The kept rows of `df_row_diff_2` are exactly the stub rows with no
matching old row. -/
theorem df_row_diff_2_fst_eq_filter (oldCols : List String) (oldRows : List (List Value))
    (stubCols : List String) (stubRows : List (Nat × List Value)) :
    (df_row_diff_2 oldCols oldRows stubCols stubRows).1
      = stubRows.filter
          (fun r => !(oldRows.any (fun o => rowMatch oldCols o stubCols r.2))) := by
  induction stubRows with
  | nil => rfl
  | cons r rest ih =>
    simp only [df_row_diff_2, List.filter_cons, List.any_map, Function.comp]
    rcases h : (oldRows.map (fun o => rowMatch oldCols o stubCols r.2)).any id with _ | _
    · simp only [h, if_neg Bool.false_ne_true, ih]
      have h' : oldRows.any (fun o => rowMatch oldCols o stubCols r.2) = false := by
        simpa [List.any_map, Function.comp] using h
      simp [h']
    · simp only [h, if_pos rfl, ih]
      have h' : oldRows.any (fun o => rowMatch oldCols o stubCols r.2) = true := by
        simpa [List.any_map, Function.comp] using h
      simp [h']

/-- Non-missing values are equal to themselves under pandas equality. -/
theorem valEq_refl (v : Value) (h : v ≠ Value.null) : valEq v v = true := by
  cases v with
  | null => exact absurd rfl h
  | str s => simp [valEq]
  | num n => simp [valEq]

/-- In a duplicate-free column list, the index of the `i`-th name is `i`. -/
theorem indexOf_get_of_nodup :
    ∀ (l : List String) (i : Nat) (h : i < l.length), l.Nodup →
      l.indexOf (l.get ⟨i, h⟩) = i := by
  intro l
  induction l with
  | nil => intro i h; exact absurd h (by simp)
  | cons a t ih =>
    intro i h hnd
    cases i with
    | zero => simp
    | succ j =>
      have hj : j < t.length := by simpa using h
      have hmem : t.get ⟨j, hj⟩ ∈ t := List.get_mem t j hj
      have hne : a ≠ t.get ⟨j, hj⟩ := by
        intro he
        exact (List.nodup_cons.mp hnd).1 (he ▸ hmem)
      have hg : (a :: t).get ⟨j + 1, h⟩ = t.get ⟨j, hj⟩ := rfl
      rw [hg, List.indexOf_cons_ne _ hne, ih j hj (List.nodup_cons.mp hnd).2]

/-- Over duplicate-free columns, a row without missing values matches itself. -/
theorem rowMatch_self (cols : List String) (cells : List Value)
    (hnd : cols.Nodup) (hnn : ∀ v ∈ cells, v ≠ Value.null) :
    rowMatch cols cells cols cells = true := by
  unfold rowMatch
  rw [List.all_eq_true]
  intro p hp
  obtain ⟨i, hlen, hget⟩ := List.mem_iff_getElem.mp hp
  have hzl : (cols.zip cells).length = min cols.length cells.length :=
    List.length_zip cols cells
  have h1 : i < cols.length := by omega
  have h2 : i < cells.length := by omega
  have hz : (cols.zip cells)[i] = (cols[i], cells[i]) := List.getElem_zip
  rw [← hget, hz]
  have hidx : cols.indexOf cols[i] = i := by
    have := indexOf_get_of_nodup cols i h1 hnd
    simpa [List.get_eq_getElem] using this
  simp only [projCell, hidx]
  rw [List.getD_eq_getElem _ _ h2]
  exact valEq_refl _ (hnn _ (List.getElem_mem h2))

/-- A DataFrame: column names plus rows of cells aligned with the columns. -/
structure Table where
  cols : List String
  rows : List (List Value)
deriving DecidableEq, Repr

/-- Python exceptions that the embedded code can raise. -/
inductive PyErr where
  | attributeError : PyErr
  | indexError : PyErr
  | nameError : PyErr
deriving DecidableEq, Repr

/-- Python `str.split(', ')` over a character list: cut at each
(leftmost-first) occurrence of comma-space; a string without the separator
yields the one-element list holding the whole string. -/
def pySplitAux : List Char → List Char → List (List Char)
  | [], acc => [acc.reverse]
  | ',' :: ' ' :: rest, acc => acc.reverse :: pySplitAux rest []
  | c :: rest, acc => pySplitAux rest (c :: acc)

/-- Python `s.split(', ')`. -/
def pySplitCommaSpace (s : String) : List String :=
  (pySplitAux s.data []).map (fun l => String.mk l)

/-- `k.lower().replace(' ', '_')` from `clean_stub_df`'s column
canonicalization (ASCII lowering; a space never survives the lowering). -/
def canonName (s : String) : String :=
  String.mk (s.data.map (fun c => if c == ' ' then '_' else c.toLower))

/-- `df[c].values`: the column of cells named `c` (first occurrence). -/
def getCol (t : Table) (c : String) : List Value :=
  t.rows.map (fun r => r.getD (t.cols.indexOf c) Value.null)

/-- `safe_to_dt` from `doge_scrape.py`: a bare `try/except` around
`pd.to_datetime`, so every parse failure becomes a null.  The parser itself
(`pd.to_datetime`) is an external primitive, taken as a parameter. -/
def safe_to_dt (toDatetime : Value → Except Unit Value) (v : Value) : Value :=
  match toDatetime v with
  | Except.ok d => d
  | Except.error _ => Value.null

/-- The `uploaded_on` step of `clean_stub_df`: when the column is present,
append an `uploaded_dt` column holding `safe_to_dt` of each value. -/
def addUploadedDt (toDatetime : Value → Except Unit Value) (t : Table) : Table :=
  if t.cols.contains "uploaded_on" then
    { cols := t.cols ++ ["uploaded_dt"],
      rows := (t.rows.zip (getCol t "uploaded_on")).map
        (fun p => p.1 ++ [safe_to_dt toDatetime p.2]) }
  else t

/-- The state of the table when `clean_stub_df` reaches its `location` block:
column names canonicalized, then the `uploaded_on` step applied. -/
def preLocTable (toDatetime : Value → Except Unit Value) (t : Table) : Table :=
  addUploadedDt toDatetime { cols := t.cols.map canonName, rows := t.rows }

/-- `loc.split(', ')` inside the list comprehension of `clean_stub_df`:
calling `.split` on a non-string (a missing value) raises `AttributeError`. -/
def splitLoc : Value → Except PyErr (List String)
  | Value.str s => Except.ok (pySplitCommaSpace s)
  | _ => Except.error PyErr.attributeError

/-- One iteration of the location loop up to the `city`/`state` assignments:
`loc_part_tup[1]` raises `IndexError` when the split has fewer than two
tokens; otherwise `city` is the first token and `state` is the second token
when it has exactly two characters, else the empty string. -/
def cityStateOf : List String → Except PyErr (Value × Value)
  | c :: s :: _ => Except.ok (Value.str c, Value.str (if s.length == 2 then s else ""))
  | _ => Except.error PyErr.indexError

/-- The `agency` assignment of the location loop: only performed when the
split has more than two tokens; the third token when the second is a
two-character state code, otherwise the second token. -/
def agencyOf (p : List String) : Value :=
  if p.length > 2 then
    Value.str (if (p.getD 1 "").length == 2 then p.getD 2 "" else p.getD 1 "")
  else Value.null

/-- Apply a fallible function to every element in order, stopping at the
first raised exception — the effect of a Python loop or comprehension over a
list. -/
def exceptMap (f : α → Except PyErr β) : List α → Except PyErr (List β)
  | [] => Except.ok []
  | a :: rest =>
    match f a with
    | Except.error e => Except.error e
    | Except.ok b =>
      match exceptMap f rest with
      | Except.error e => Except.error e
      | Except.ok bs => Except.ok (b :: bs)

/-- The `location` block of `clean_stub_df`: split every location value, then
run the per-row loop.  The `agency` column only comes into existence when some
row assigns it (rows that never assign it hold a missing value). -/
def locStep (t : Table) : Except PyErr Table :=
  match exceptMap splitLoc (getCol t "location") with
  | Except.error e => Except.error e
  | Except.ok parts =>
    match exceptMap cityStateOf parts with
    | Except.error e => Except.error e
    | Except.ok cs =>
      let hasAgency := parts.any (fun p => decide (p.length > 2))
      Except.ok
        { cols := t.cols ++ ["city", "state"] ++ (if hasAgency then ["agency"] else []),
          rows := (t.rows.zip (cs.zip parts)).map
            (fun q => q.1 ++ [q.2.1.1, q.2.1.2]
              ++ (if hasAgency then [agencyOf q.2.2] else [])) }

/-- `df.link.fillna('')`: a missing link becomes the empty string. -/
def fillNaEmpty : Value → Value
  | Value.null => Value.str ""
  | v => v

/-- `df.loc[df.vendor == 'N/A', 'vendor'] = ''`: the literal `"N/A"` becomes
the empty string; every other cell is untouched. -/
def vendorNA (v : Value) : Value :=
  if v == Value.str "N/A" then Value.str "" else v

/-- Rewrite the cells of column `c` in place with `f`. -/
def mapColInPlace (t : Table) (c : String) (f : Value → Value) : Table :=
  { cols := t.cols,
    rows := t.rows.map
      (fun r => r.set (t.cols.indexOf c) (f (r.getD (t.cols.indexOf c) Value.null))) }

/-- `clean_stub_df` from `doge_scrape.py`: canonicalize column names, derive
`uploaded_dt`, split `location` into `city`/`state`/`agency` (this step can
raise), fill missing `link` values with the empty string, and replace the
`"N/A"` vendor placeholder with the empty string.  Each step applies only if
its source column is present. -/
def clean_stub_df (toDatetime : Value → Except Unit Value) (t : Table) :
    Except PyErr Table :=
  let t1 := preLocTable toDatetime t
  match (if t1.cols.contains "location" then locStep t1 else Except.ok t1) with
  | Except.error e => Except.error e
  | Except.ok t2 =>
    let t3 := if t2.cols.contains "link" then mapColInPlace t2 "link" fillNaEmpty else t2
    let t4 := if t3.cols.contains "vendor" then mapColInPlace t3 "vendor" vendorNA else t3
    Except.ok t4

/-- A location cell the location loop handles without raising: a string whose
comma-space split has at least two tokens. -/
def goodLoc : Value → Bool
  | Value.str s => decide (2 ≤ (pySplitCommaSpace s).length)
  | _ => false

/-- `loc.split(', ')` as a total function on the good cells. -/
def locSplit : Value → List String
  | Value.str s => pySplitCommaSpace s
  | _ => []

/-- The `city` and `state` values of a split with at least two tokens. -/
def cityStateVals (p : List String) : Value × Value :=
  (Value.str (p.headD ""), Value.str (if (p.getD 1 "").length == 2 then p.getD 1 "" else ""))

/-- A good location cell splits into at least two tokens. -/
theorem goodLoc_length {v : Value} (h : goodLoc v = true) :
    2 ≤ (locSplit v).length := by
  cases v with
  | null => simp [goodLoc] at h
  | str s => simpa [goodLoc, locSplit] using h
  | num n => simp [goodLoc] at h

/-- On good cells, the fallible split succeeds and returns `locSplit`. -/
theorem exceptMap_splitLoc_ok (vs : List Value) (h : ∀ v ∈ vs, goodLoc v = true) :
    exceptMap splitLoc vs = Except.ok (vs.map locSplit) := by
  induction vs with
  | nil => rfl
  | cons v rest ih =>
    have hv := h v (List.mem_cons_self v rest)
    have hrest := ih (fun w hw => h w (List.mem_cons_of_mem v hw))
    cases v with
    | null => simp [goodLoc] at hv
    | str s => simp [exceptMap, splitLoc, locSplit, hrest]
    | num n => simp [goodLoc] at hv

/-- On splits with at least two tokens, the fallible city/state extraction
succeeds and returns `cityStateVals`. -/
theorem exceptMap_cityStateOf_ok (ps : List (List String))
    (h : ∀ p ∈ ps, 2 ≤ p.length) :
    exceptMap cityStateOf ps = Except.ok (ps.map cityStateVals) := by
  induction ps with
  | nil => rfl
  | cons p rest ih =>
    have hp := h p (List.mem_cons_self p rest)
    have hrest := ih (fun q hq => h q (List.mem_cons_of_mem p hq))
    match p, hp with
    | c :: s :: tl, _ =>
      simp [exceptMap, cityStateOf, cityStateVals, hrest]
    | [], hp => simp at hp
    | [c], hp => simp at hp

/-- Under good location cells, `locStep` succeeds, and the produced table is
the input extended with the split-derived columns. -/
theorem locStep_eq (t : Table) (h : (getCol t "location").all goodLoc = true) :
    locStep t =
      Except.ok
        { cols := t.cols ++ ["city", "state"]
            ++ (if ((getCol t "location").map locSplit).any
                  (fun p => decide (p.length > 2)) then ["agency"] else []),
          rows := (t.rows.zip
              ((((getCol t "location").map locSplit).map cityStateVals).zip
                ((getCol t "location").map locSplit))).map
            (fun q => q.1 ++ [q.2.1.1, q.2.1.2]
              ++ (if ((getCol t "location").map locSplit).any
                    (fun p => decide (p.length > 2)) then [agencyOf q.2.2] else [])) } := by
  have hall : ∀ v ∈ getCol t "location", goodLoc v = true := List.all_eq_true.mp h
  have hlen : ∀ p ∈ (getCol t "location").map locSplit, 2 ≤ p.length := by
    intro p hp
    obtain ⟨v, hv, rfl⟩ := List.mem_map.mp hp
    exact goodLoc_length (hall v hv)
  unfold locStep
  rw [exceptMap_splitLoc_ok _ hall]
  dsimp only
  rw [exceptMap_cityStateOf_ok _ hlen]

/-- `clean_stub_df` succeeds whenever the location cells it will see are good
(the hypothesis is vacuous when no `location` column is present). -/
theorem clean_stub_df_ok (toDatetime : Value → Except Unit Value) (t : Table)
    (h : (preLocTable toDatetime t).cols.contains "location" = true →
      (getCol (preLocTable toDatetime t) "location").all goodLoc = true) :
    ∃ t2, clean_stub_df toDatetime t = Except.ok t2 := by
  unfold clean_stub_df
  rcases hc : (preLocTable toDatetime t).cols.contains "location" with _ | _
  · simp only [hc, if_neg Bool.false_ne_true]
    exact ⟨_, rfl⟩
  · simp only [hc, if_pos rfl]
    rw [locStep_eq _ (h hc)]
    exact ⟨_, rfl⟩

/-- One line of the per-run error log written by `log_row_error(mode, dt, url)`:
`"{mode},{dt},{url}"` appended to `./runlog/scrape-{dt}.txt`. -/
structure LogEntry where
  mode : String
  dt : String
  url : String
deriving DecidableEq, Repr

/-- A contract row handed to `extend_contract_data`: its cells plus the value
of its `fpds_link` column (the cross-reference link). -/
structure CRow where
  cells : List Value
  fpds_link : String
deriving DecidableEq, Repr

/-- A grant row handed to `extend_grant_data`: its cells plus the value of its
`link` column. -/
structure GRow where
  cells : List Value
  link : String
deriving DecidableEq, Repr

/-- The outcome of one secondary fetch-and-parse: the enrichment cells on
success, or a raised exception. -/
inductive EnrichResult where
  | ok : List Value → EnrichResult
  | err : EnrichResult
deriving DecidableEq, Repr

/-- Concrete stand-in for the external `validators.url` predicate, used only
to instantiate counterexamples and witnesses; the theorems quantify over the
predicate.  A plain word is not a URL under any such check. -/
def validators_url (s : String) : Bool :=
  List.isPrefixOf "http://".data s.data || List.isPrefixOf "https://".data s.data

/-- `extend_contract_data(contract_df, dt)` from `doge_scrape.py`.  For each
row's `fpds_link`: if `validators.url` accepts it, fetch and parse the FPDS
page (`fetchParse`); a raised exception is caught, logged via
`log_row_error('contract', dt, fpds_link)`, and replaced by an all-null
enrichment row.  A link failing the URL check gets the all-null enrichment row
with no log call.  The result pairs every input row, in order, with its
enrichment (`none` is the all-null extension), plus the log lines written. -/
def extend_contract_data (validUrl : String → Bool)
    (fetchParse : String → EnrichResult) (dt : String) :
    List CRow → List (CRow × Option (List Value)) × List LogEntry
  | [] => ([], [])
  | r :: rest =>
    let tail := extend_contract_data validUrl fetchParse dt rest
    if validUrl r.fpds_link then
      match fetchParse r.fpds_link with
      | EnrichResult.ok d => ((r, some d) :: tail.1, tail.2)
      | EnrichResult.err =>
        ((r, none) :: tail.1, LogEntry.mk "contract" dt r.fpds_link :: tail.2)
    else ((r, none) :: tail.1, tail.2)

/-- `os.path.basename`: the part of the path after the last slash. -/
def basename (s : String) : String :=
  String.mk (pathSplitAux s.data [])
where
  pathSplitAux : List Char → List Char → List Char
    | [], acc => acc.reverse
    | '/' :: rest, _ => pathSplitAux rest []
    | c :: rest, acc => pathSplitAux rest (c :: acc)

/-- `os.path.join('https://api.usaspending.gov/api/v2/awards/', grant_id)`:
the root ends in a slash and the basename holds none, so the join is plain
concatenation. -/
def usasUrl (link : String) : String :=
  "https://api.usaspending.gov/api/v2/awards/" ++ basename link

/-- `extend_grant_data(grant_df, dt)` from `doge_scrape.py`.  For each row's
`link`: if `validators.url` accepts it, build the USASpending URL from the
link's basename and fetch it (`fetchJson`); a raised exception is caught,
logged via `log_row_error('grant', dt, usas_req_url)`, and replaced by an
all-null enrichment row.  A link failing the URL check gets the all-null row
with no log call.  Row pairing and ordering are as in the contract variant. -/
def extend_grant_data (validUrl : String → Bool)
    (fetchJson : String → EnrichResult) (dt : String) :
    List GRow → List (GRow × Option (List Value)) × List LogEntry
  | [] => ([], [])
  | r :: rest =>
    let tail := extend_grant_data validUrl fetchJson dt rest
    if validUrl r.link then
      match fetchJson (usasUrl r.link) with
      | EnrichResult.ok d => ((r, some d) :: tail.1, tail.2)
      | EnrichResult.err =>
        ((r, none) :: tail.1, LogEntry.mk "grant" dt (usasUrl r.link) :: tail.2)
    else ((r, none) :: tail.1, tail.2)

/-- The rows returned by contract enrichment are the input rows in order,
each paired with its per-row outcome. -/
theorem extend_contract_data_rows (validUrl : String → Bool)
    (fetchParse : String → EnrichResult) (dt : String) (t : List CRow) :
    (extend_contract_data validUrl fetchParse dt t).1
      = t.map (fun r =>
          (r, if validUrl r.fpds_link then
                match fetchParse r.fpds_link with
                | EnrichResult.ok d => some d
                | EnrichResult.err => none
              else none)) := by
  induction t with
  | nil => rfl
  | cons r rest ih =>
    simp only [extend_contract_data, List.map_cons]
    rcases h : validUrl r.fpds_link with _ | _
    · simp [h, ih]
    · rcases hf : fetchParse r.fpds_link with d | _ <;> simp [h, hf, ih]

/-- The error-log lines of contract enrichment: exactly one line per row whose
link passes the URL check and whose fetch raises, in row order. -/
theorem extend_contract_data_log (validUrl : String → Bool)
    (fetchParse : String → EnrichResult) (dt : String) (t : List CRow) :
    (extend_contract_data validUrl fetchParse dt t).2
      = (t.filter (fun r =>
            validUrl r.fpds_link && fetchParse r.fpds_link == EnrichResult.err)).map
          (fun r => LogEntry.mk "contract" dt r.fpds_link) := by
  induction t with
  | nil => rfl
  | cons r rest ih =>
    simp only [extend_contract_data, List.filter_cons]
    rcases h : validUrl r.fpds_link with _ | _
    · simp [h, ih]
    · rcases hf : fetchParse r.fpds_link with d | _ <;> simp [h, hf, ih]

/-- The rows returned by grant enrichment are the input rows in order, each
paired with its per-row outcome. -/
theorem extend_grant_data_rows (validUrl : String → Bool)
    (fetchJson : String → EnrichResult) (dt : String) (t : List GRow) :
    (extend_grant_data validUrl fetchJson dt t).1
      = t.map (fun r =>
          (r, if validUrl r.link then
                match fetchJson (usasUrl r.link) with
                | EnrichResult.ok d => some d
                | EnrichResult.err => none
              else none)) := by
  induction t with
  | nil => rfl
  | cons r rest ih =>
    simp only [extend_grant_data, List.map_cons]
    rcases h : validUrl r.link with _ | _
    · simp [h, ih]
    · rcases hf : fetchJson (usasUrl r.link) with d | _ <;> simp [h, hf, ih]

/-- `replace(':', '')`: drop every colon from the timestamp string. -/
def removeColons (s : String) : String :=
  String.mk (s.data.filter (fun c => c != ':'))

/-- `new_data_stats`: the per-category new-row counts computed by
`update_doge_data`. -/
structure NewDataStats where
  contract : Nat
  grant : Nat
  property : Nat
deriving DecidableEq, Repr

/-- `save_doge_data_bln` from `sync_doge_scrape.py`.  `nowIso` plays the role
of `datetime.now().isoformat(timespec='seconds')`; the function strips its
colons and, for each category with a positive new-row count, writes
`doge-<category>_<stripped timestamp>.csv` and appends that name to
`new_files`.  The first component lists the `to_csv` writes in order; the
second is the returned `new_files` list. -/
def save_doge_data_bln (stats : NewDataStats) (nowIso : String) :
    List String × List String :=
  let dt_str := removeColons nowIso
  let s0 : List String × List String := ([], [])
  let s1 :=
    if stats.contract > 0 then
      (s0.1 ++ ["doge-contract_" ++ dt_str ++ ".csv"],
       s0.2 ++ ["doge-contract_" ++ dt_str ++ ".csv"])
    else s0
  let s2 :=
    if stats.grant > 0 then
      (s1.1 ++ ["doge-grant_" ++ dt_str ++ ".csv"],
       s1.2 ++ ["doge-grant_" ++ dt_str ++ ".csv"])
    else s1
  let s3 :=
    if stats.property > 0 then
      (s2.1 ++ ["doge-property_" ++ dt_str ++ ".csv"],
       s2.2 ++ ["doge-property_" ++ dt_str ++ ".csv"])
    else s2
  s3

/-- The `uploads` dict accumulated by `copy_scrape_files_to_bln`. -/
structure Uploads where
  success : List String
  failure : List String
deriving DecidableEq, Repr

/-- `copy_scrape_files_to_bln` from `sync_doge_scrape.py`.  `uploadOk f` tells
whether `client.upload_file` returns normally for file `f`.  Each file is
attempted in order; success appends the name to `uploads["success"]`, and a
raised exception is caught and logged — the `except` branch appends to no
list, so `uploads["failure"]` never grows.  The second component records the
attempted `upload_file` calls. -/
def copy_scrape_files_to_bln (uploadOk : String → Bool) :
    List String → Uploads × List String
  | [] => (Uploads.mk [] [], [])
  | f :: rest =>
    let tail := copy_scrape_files_to_bln uploadOk rest
    if uploadOk f then
      (Uploads.mk (f :: tail.1.success) tail.1.failure, f :: tail.2)
    else
      (tail.1, f :: tail.2)

/-- Every file handed to `copy_scrape_files_to_bln` is attempted, in order,
whatever the per-file outcomes. -/
theorem copy_scrape_files_attempts (uploadOk : String → Bool) (files : List String) :
    (copy_scrape_files_to_bln uploadOk files).2 = files := by
  induction files with
  | nil => rfl
  | cons f rest ih =>
    simp only [copy_scrape_files_to_bln]
    rcases h : uploadOk f with _ | _ <;> simp [h, ih]

/-- The `failure` list of `copy_scrape_files_to_bln` is always empty, and the
`success` list keeps exactly the files whose upload returned normally. -/
theorem copy_scrape_files_uploads (uploadOk : String → Bool) (files : List String) :
    (copy_scrape_files_to_bln uploadOk files).1
      = Uploads.mk (files.filter uploadOk) [] := by
  induction files with
  | nil => rfl
  | cons f rest ih =>
    simp only [copy_scrape_files_to_bln, List.filter_cons]
    rcases h : uploadOk f with _ | _ <;> simp [h, ih]

/-- `f"{len(s)} new/updated file(s) uploaded to BLN project ({', '.join(s)})"`
(the run_pipeline success wording, with the list joined as Python prints it
inside an f-string via `', '.join`). -/
def successMessage (s : List String) : String :=
  toString s.length ++ " new/updated file(s) uploaded to BLN project ("
    ++ String.intercalate ", " s ++ ")"

/-- `f"{len(f)} new/updated file(s) failed to upload to BLN project ({...})"`. -/
def failureMessage (f : List String) : String :=
  toString f.length ++ " new/updated file(s) failed to upload to BLN project ("
    ++ String.intercalate ", " f ++ ")"

/-- The reporting tail of `run_pipeline` (lines 410-430 of
`sync_doge_scrape.py`), as written.  `uploads?` is `none` when the
`if new_scrape_files:` block did not run, leaving the local `uploads` unbound;
reading it then raises `NameError`.  `file_upload_message` starts unbound; the
first `if` binds it only when `uploads["success"]` is non-empty.  The `else`
belongs to `if uploads["failure"]:`, so with no failures the message is always
rewritten to `"No new files found."` with outcome `"success"`; with failures,
the message extends the (possibly unbound — `NameError`) success message and
the outcome is `"error"`.  The result is the posted final message (prefixed
`"Process complete. "`) and its severity. -/
def reportStep : Option Uploads → Except PyErr (String × String)
  | none => Except.error PyErr.nameError
  | some u =>
    let msg? : Option String :=
      if u.success.isEmpty then none else some (successMessage u.success)
    if u.failure.isEmpty then
      Except.ok ("Process complete. " ++ "No new files found.", "success")
    else
      match msg? with
      | none => Except.error PyErr.nameError
      | some m =>
        Except.ok ("Process complete. " ++ (m ++ ". " ++ failureMessage u.failure),
          "error")

instance {e a : Type} [DecidableEq e] [DecidableEq a] : DecidableEq (Except e a) :=
  fun x y =>
    match x, y with
    | Except.ok u, Except.ok v => decidable_of_iff (u = v) (by simp)
    | Except.ok u, Except.error w => Decidable.isFalse (by simp)
    | Except.error w, Except.ok u => Decidable.isFalse (by simp)
    | Except.error w, Except.error z => decidable_of_iff (w = z) (by simp)

/-- The observable outcome of the save/upload/report tail of `run_pipeline`. -/
structure PipelineOutcome where
  written : List String
  attempted : List String
  report : Except PyErr (String × String)
deriving DecidableEq, Repr

/-- The tail of `run_pipeline` after `update_doge_data`: save the tables
(`save_doge_data_bln`), upload only when `new_scrape_files` is non-empty
(`copy_scrape_files_to_bln`), then run the reporting block.  `written` is the
list of files written locally, `attempted` the list of upload calls made. -/
def pipelineTail (stats : NewDataStats) (nowIso : String)
    (uploadOk : String → Bool) : PipelineOutcome :=
  let saved := save_doge_data_bln stats nowIso
  let files := saved.2
  if files.isEmpty then
    PipelineOutcome.mk saved.1 [] (reportStep none)
  else
    let up := copy_scrape_files_to_bln uploadOk files
    PipelineOutcome.mk saved.1 up.2 (reportStep (some up.1))

/-- Follows the spec's words, for comparison with `valEq`: agreement on a
comparison-column value "where two null values count as equal to each
other". -/
def specValEq : Value → Value → Bool
  | Value.null, Value.null => true
  | a, b => valEq a b

/-- Follows the spec's words, for comparison with `df_row_diff_2`: the rows of
the new table with no old row agreeing on every comparison column, nulls
counting as equal to each other. -/
def specRowDiffNullEq (oldCols : List String) (oldRows : List (List Value))
    (stubCols : List String) (stubRows : List (Nat × List Value)) :
    List (Nat × List Value) :=
  stubRows.filter (fun r =>
    !(oldRows.any (fun o =>
      (stubCols.zip r.2).all (fun p => specValEq (projCell oldCols o p.1) p.2))))

/-- C1 counterexample: a one-row table holding a single null cell, diffed
against itself, comes back whole — `df_row_diff_2` uses pandas `==`, under
which null does not match null — while the claimed null-equals-null semantics
(`specRowDiffNullEq`) returns the empty table.  The claim's "diffing a table
against itself yields an empty result" fails at this input. -/
theorem c1_counterexample :
    (df_row_diff_2 ["amount"] [[Value.null]] ["amount"] [(0, [Value.null])]).1
      = [(0, [Value.null])]
  ∧ specRowDiffNullEq ["amount"] [[Value.null]] ["amount"] [(0, [Value.null])] = [] :=
  ⟨rfl, rfl⟩

/-- C1 (amended): the differ returns exactly the new rows with no old row
agreeing on every comparison column, where a null compares unequal to every
value including another null; consequently a table with duplicate-free column
names and no null cells diffs against itself to the empty table.  (The
embedding is pure: the old table is only read, never mutated.) -/
theorem c1_theorem :
    (∀ (oldCols : List String) (oldRows : List (List Value))
        (stubCols : List String) (stubRows : List (Nat × List Value)),
      (df_row_diff_2 oldCols oldRows stubCols stubRows).1
        = stubRows.filter
            (fun r => !(oldRows.any (fun o => rowMatch oldCols o stubCols r.2))))
  ∧ (∀ (cols : List String) (rows : List (Nat × List Value)),
      cols.Nodup → (∀ r ∈ rows, ∀ v ∈ (Prod.snd r), v ≠ Value.null) →
      (df_row_diff_2 cols (rows.map Prod.snd) cols rows).1 = []) := by
  constructor
  · exact df_row_diff_2_fst_eq_filter
  · intro cols rows hnd hnn
    rw [df_row_diff_2_fst_eq_filter, List.filter_eq_nil_iff]
    intro r hr
    have hany : (rows.map Prod.snd).any (fun o => rowMatch cols o cols r.2) = true := by
      rw [List.any_eq_true]
      exact ⟨r.2, List.mem_map_of_mem Prod.snd hr,
        rowMatch_self cols r.2 hnd (hnn r hr)⟩
    simp [hany]

/-- C1 witness: the amended self-diff clause at a concrete null-free table. -/
theorem c1_theorem_witness :
    (["amount"] : List String).Nodup
  ∧ (∀ r ∈ [((0 : Nat), [Value.str "x"])], ∀ v ∈ (Prod.snd r), v ≠ Value.null)
  ∧ (df_row_diff_2 ["amount"] ([((0 : Nat), [Value.str "x"])].map Prod.snd)
      ["amount"] [((0 : Nat), [Value.str "x"])]).1 = [] :=
  ⟨by decide, by decide,
    c1_theorem.2 ["amount"] [((0 : Nat), [Value.str "x"])] (by decide) (by decide)⟩

/-- C10: the kept rows of `df_row_diff_2` form an order-preserving sublist of
the input stub rows; since rows are `(label, cells)` pairs, every retained row
keeps both its relative order and its original index label. -/
theorem c10_theorem (oldCols : List String) (oldRows : List (List Value))
    (stubCols : List String) (stubRows : List (Nat × List Value)) :
    List.Sublist (df_row_diff_2 oldCols oldRows stubCols stubRows).1 stubRows := by
  rw [df_row_diff_2_fst_eq_filter]
  exact List.filter_sublist _

/-- C4: both enrichment variants return exactly the input rows, in order,
each only annotated with its per-row enrichment outcome — the same row count,
no record dropped or reordered, for every pattern of per-row lookup
successes and failures. -/
theorem c4_theorem :
    ∀ (validUrl : String → Bool) (fetchParse fetchJson : String → EnrichResult)
      (dt : String) (tc : List CRow) (tg : List GRow),
    ((extend_contract_data validUrl fetchParse dt tc).1.map Prod.fst = tc
      ∧ (extend_contract_data validUrl fetchParse dt tc).1.length = tc.length)
  ∧ ((extend_grant_data validUrl fetchJson dt tg).1.map Prod.fst = tg
      ∧ (extend_grant_data validUrl fetchJson dt tg).1.length = tg.length) := by
  intro v f g dt tc tg
  have hc : (extend_contract_data v f dt tc).1.map Prod.fst = tc := by
    rw [extend_contract_data_rows, List.map_map]
    exact List.map_id tc
  have hg : (extend_grant_data v g dt tg).1.map Prod.fst = tg := by
    rw [extend_grant_data_rows, List.map_map]
    exact List.map_id tg
  refine ⟨⟨hc, ?_⟩, ⟨hg, ?_⟩⟩
  · have := congrArg List.length hc
    simpa using this
  · have := congrArg List.length hg
    simpa using this

/-- A fetch-and-parse oracle that always succeeds with no extra cells; the
non-URL branch never reaches it. -/
def fetchOkEmpty : String → EnrichResult := fun _ => EnrichResult.ok []

/-- C5 counterexample: a contract row whose link field holds a non-URL string
is kept with the all-null extension and raises nothing, but the run error log
stays empty — `log_row_error` is only called from the `except` branch, which a
link failing `validators.url` never enters.  The claim's "logs the error to
the per-run error log" fails at this input. -/
theorem c5_counterexample :
    validators_url "not a url" = false
  ∧ extend_contract_data validators_url fetchOkEmpty "2025-06-29-2044"
      [CRow.mk [] "not a url"]
      = ([(CRow.mk [] "not a url", none)], []) :=
  ⟨rfl, rfl⟩

/-- C5 (amended): a contract row whose link fails the URL check raises no
exception and is kept with the all-null extension, but no error-log line is
written for it; the per-run log holds exactly one line — mode `"contract"`,
the run timestamp, the failing URL — for each row whose link passes the URL
check and whose fetch or parse raises. -/
theorem c5_theorem :
    ∀ (validUrl : String → Bool) (fetchParse : String → EnrichResult)
      (dt : String) (t : List CRow),
    (extend_contract_data validUrl fetchParse dt t).2
      = (t.filter (fun r =>
            validUrl r.fpds_link && fetchParse r.fpds_link == EnrichResult.err)).map
          (fun r => LogEntry.mk "contract" dt r.fpds_link)
  ∧ (extend_contract_data validUrl fetchParse dt t).1
      = t.map (fun r =>
          (r, if validUrl r.fpds_link then
                match fetchParse r.fpds_link with
                | EnrichResult.ok d => some d
                | EnrichResult.err => none
              else none)) :=
  fun v f dt t => ⟨extend_contract_data_log v f dt t, extend_contract_data_rows v f dt t⟩

/-- The `pd.to_datetime` stand-in that fails on every input: under it every
date parse degrades to null, exercising the claim that parse failures never
propagate. -/
def dtParseFail : Value → Except Unit Value := fun _ => Except.error ()

/-- C6 counterexample: a table whose `location` value has no comma-space
separator makes `clean_stub_df` raise `IndexError` (`loc_part_tup[1]` on a
one-token split) — the normalizer is not total. -/
theorem c6_counterexample :
    clean_stub_df dtParseFail (Table.mk ["Location"] [[Value.str "Washington"]])
      = Except.error PyErr.indexError :=
  rfl

/-- C6 (amended): the normalizer never propagates a date-parse failure (the
parser is universally quantified, including the always-failing one), but it is
total only on tables whose location cells — when a `location` column is
present after canonicalization — are strings splitting into at least two
comma-space tokens; on such tables it always returns a table. -/
theorem c6_theorem (toDatetime : Value → Except Unit Value) (t : Table)
    (h : (preLocTable toDatetime t).cols.contains "location" = true →
      (getCol (preLocTable toDatetime t) "location").all goodLoc = true) :
    ∃ t2, clean_stub_df toDatetime t = Except.ok t2 :=
  clean_stub_df_ok toDatetime t h

/-- C6 witness: a concrete table with an unparseable date and well-formed
locations is normalized without error. -/
theorem c6_theorem_witness :
    ((preLocTable dtParseFail
        (Table.mk ["Uploaded On", "Location"]
          [[Value.str "junkdate", Value.str "Boston, MA"]])).cols.contains "location" = true →
      (getCol (preLocTable dtParseFail
        (Table.mk ["Uploaded On", "Location"]
          [[Value.str "junkdate", Value.str "Boston, MA"]])) "location").all goodLoc = true)
  ∧ ∃ t2, clean_stub_df dtParseFail
      (Table.mk ["Uploaded On", "Location"]
        [[Value.str "junkdate", Value.str "Boston, MA"]]) = Except.ok t2 :=
  ⟨by decide,
    c6_theorem dtParseFail
      (Table.mk ["Uploaded On", "Location"]
        [[Value.str "junkdate", Value.str "Boston, MA"]]) (by decide)⟩

/-- Follows the spec's words, for comparison with `locStep`: the claimed
city/state/agency of one split location — first token the city; a
two-character second token the state with any third token the agency;
otherwise an empty state with the tokens shifted down, "the second token
becomes the agency". -/
def claimLocRow (p : List String) : Value × Value × Value :=
  if (p.getD 1 "").length == 2 then
    (Value.str (p.headD ""), Value.str (p.getD 1 ""),
      if 2 < p.length then Value.str (p.getD 2 "") else Value.null)
  else
    (Value.str (p.headD ""), Value.str "", Value.str (p.getD 1 ""))

/-- C9 counterexample: for the two-token location `"Boston, Somewhere"` whose
second token is not two characters, the claim demands agency
`"Somewhere"` (the shifted second token), but the code assigns agency only
when the split has more than two tokens — here no `agency` column is created
at all. -/
theorem c9_counterexample :
    locStep (Table.mk ["location"] [[Value.str "Boston, Somewhere"]])
      = Except.ok (Table.mk ["location", "city", "state"]
          [[Value.str "Boston, Somewhere", Value.str "Boston", Value.str ""]])
  ∧ claimLocRow (pySplitCommaSpace "Boston, Somewhere")
      = (Value.str "Boston", Value.str "", Value.str "Somewhere") :=
  ⟨rfl, rfl⟩

/-- C9 (amended): when every location value splits into at least two
comma-space tokens, the location step appends a `city` column (first token)
and a `state` column (second token when exactly two characters, else empty);
an `agency` value is assigned only to rows whose split has more than two
tokens — the third token when the second is a two-character state code,
otherwise the second token — and the `agency` column exists only when some
row has more than two tokens. -/
theorem c9_theorem (t : Table)
    (h : (getCol t "location").all goodLoc = true) :
    locStep t =
      Except.ok
        { cols := t.cols ++ ["city", "state"]
            ++ (if ((getCol t "location").map locSplit).any
                  (fun p => decide (p.length > 2)) then ["agency"] else []),
          rows := (t.rows.zip
              ((((getCol t "location").map locSplit).map cityStateVals).zip
                ((getCol t "location").map locSplit))).map
            (fun q => q.1 ++ [q.2.1.1, q.2.1.2]
              ++ (if ((getCol t "location").map locSplit).any
                    (fun p => decide (p.length > 2)) then [agencyOf q.2.2] else [])) } :=
  locStep_eq t h

/-- C9 witness: a concrete table exercising both the two-character-state and
the shifted branch. -/
theorem c9_theorem_witness :
    ((getCol (Table.mk ["location"]
        [[Value.str "Pittsburgh, PA, HHS"], [Value.str "Boston, Somewhere, HHS"]])
        "location").all goodLoc = true)
  ∧ locStep (Table.mk ["location"]
        [[Value.str "Pittsburgh, PA, HHS"], [Value.str "Boston, Somewhere, HHS"]])
      = Except.ok (Table.mk ["location", "city", "state", "agency"]
          [[Value.str "Pittsburgh, PA, HHS", Value.str "Pittsburgh", Value.str "PA",
            Value.str "HHS"],
           [Value.str "Boston, Somewhere, HHS", Value.str "Boston", Value.str "",
            Value.str "Somewhere"]]) :=
  ⟨by decide,
    c9_theorem (Table.mk ["location"]
      [[Value.str "Pittsburgh, PA, HHS"], [Value.str "Boston, Somewhere, HHS"]])
      (by decide)⟩

/-- C7: the snapshot saver writes a category's CSV exactly when that
category's new-row count is positive, builds each name as
`doge-<category>_<timestamp with colons removed>.csv`, and returns exactly
the written names; the pipeline attempts uploads for exactly the returned
list.  The last clause checks the spec's concrete example: category `grant`,
timestamp string `2025-06-29T204434`, filename
`doge-grant_2025-06-29T204434.csv`. -/
theorem c7_theorem :
    ∀ (stats : NewDataStats) (nowIso : String) (uploadOk : String → Bool),
    (save_doge_data_bln stats nowIso).2 = (save_doge_data_bln stats nowIso).1
  ∧ (save_doge_data_bln stats nowIso).2
      = (if stats.contract > 0 then ["doge-contract_" ++ removeColons nowIso ++ ".csv"] else [])
        ++ (if stats.grant > 0 then ["doge-grant_" ++ removeColons nowIso ++ ".csv"] else [])
        ++ (if stats.property > 0 then ["doge-property_" ++ removeColons nowIso ++ ".csv"] else [])
  ∧ (pipelineTail stats nowIso uploadOk).attempted = (save_doge_data_bln stats nowIso).2
  ∧ save_doge_data_bln (NewDataStats.mk 0 3 0) "2025-06-29T204434"
      = (["doge-grant_2025-06-29T204434.csv"], ["doge-grant_2025-06-29T204434.csv"]) := by
  intro stats nowIso uploadOk
  refine ⟨?_, ?_, ?_, rfl⟩
  · by_cases h1 : stats.contract > 0 <;> by_cases h2 : stats.grant > 0 <;>
      by_cases h3 : stats.property > 0 <;>
      simp [save_doge_data_bln, h1, h2, h3]
  · by_cases h1 : stats.contract > 0 <;> by_cases h2 : stats.grant > 0 <;>
      by_cases h3 : stats.property > 0 <;>
      simp [save_doge_data_bln, h1, h2, h3]
  · by_cases h1 : stats.contract > 0 <;> by_cases h2 : stats.grant > 0 <;>
      by_cases h3 : stats.property > 0 <;>
      simp [pipelineTail, save_doge_data_bln, h1, h2, h3, copy_scrape_files_attempts]

/-- C2: a run whose diff finds zero new rows in all three categories writes no
snapshot file and attempts no upload, but its reporting step does not
complete: `new_scrape_files` is empty, so the `if new_scrape_files:` block
never binds `uploads`, and the reporting block's `if uploads["success"]:`
raises `NameError` — the final "No new files found." message (the dead `else`
branch) is never posted. -/
theorem c2_code_behavior :
    pipelineTail (NewDataStats.mk 0 0 0) "2025-06-29T20:44:34" (fun _ => true)
      = PipelineOutcome.mk [] [] (Except.error PyErr.nameError) :=
  rfl

/-- C3: with two written files of which the second upload raises, the
returned Upload Outcome Set is `{success: [file1], failure: []}` — the
`except` branch of `copy_scrape_files_to_bln` never appends to
`uploads["failure"]`, contradicting the function's own docstring — though
both files are attempted (a failure does not block the remaining uploads). -/
theorem c3_code_behavior :
    copy_scrape_files_to_bln (fun f => f == "doge-contract_2025-06-29T204434.csv")
        ["doge-contract_2025-06-29T204434.csv", "doge-grant_2025-06-29T204434.csv"]
      = (Uploads.mk ["doge-contract_2025-06-29T204434.csv"] [],
         ["doge-contract_2025-06-29T204434.csv", "doge-grant_2025-06-29T204434.csv"]) :=
  rfl

/-- C8: with one successful upload and no failures, the dangling `else` bound
to `if uploads["failure"]:` overwrites the freshly built success message, so
the posted final message is `"Process complete. No new files found."` — it
never names the uploaded files — although the `"success"` severity matches
the claim. -/
theorem c8_code_behavior :
    reportStep (some (Uploads.mk ["doge-grant_2025-06-29T204434.csv"] []))
      = Except.ok ("Process complete. No new files found.", "success") :=
  rfl
